import Mathlib

/-!
Shallow embedding of the nylas-python SDK files under verification:
`nylas/handler/http_client.py`, `nylas/resources/auth.py`,
`nylas/resources/calendars.py`, `nylas/models/list_response.py`.

Python dicts are modelled as insertion-ordered association lists with
string keys.  In-place mutation of a caller-visible dict is modelled by
explicit state passing: every operation that the source lets mutate a
dict the caller still holds returns the dict's final value alongside its
result.  Fallible code (`KeyError`, `TypeError`) is modelled in the
`Option` monad.  External library behaviour the source calls into
(`urllib.parse.urlencode`, `hashlib.sha256`, `base64.b64encode`,
`requests.Session`) is modelled concretely where the claims depend on it
and behaviourally (a function parameter) for the HTTP session.
-/

/-- Python `dict` with string keys: an insertion-ordered association list. -/
abbrev Dict (α : Type) : Type := List (String × α)

/-- Python subscript `d[k]`: the value at the first occurrence of key `k`;
`Option.none` models a `KeyError`. -/
def dictGet {α : Type} : Dict α → String → Option α
  | [], _ => Option.none
  | kv :: rest, k => if kv.1 = k then some kv.2 else dictGet rest k

/-- Python assignment `d[k] = v`: replace the value at `k` keeping the key's
position, or append a fresh entry at the end when `k` is absent. -/
def dictSet {α : Type} : Dict α → String → α → Dict α
  | [], k, v => [(k, v)]
  | kv :: rest, k, v => if kv.1 = k then (k, v) :: rest else kv :: dictSet rest k v

/-- Python dict-display merge of `a` then `b` (double-star unpacking both, `b`
last): entries of `b` override or extend those of `a`. -/
def dictUnion {α : Type} (a b : Dict α) : Dict α :=
  b.foldl (fun acc kv => dictSet acc kv.1 kv.2) a

/-- Python values that flow through the auth configs and query parameters of
the sources under verification: strings, lists of strings, and `None`. -/
inductive Val : Type where
  | str : String → Val
  | vlist : List String → Val
  | vnone : Val
deriving DecidableEq

/-- Python truthiness on `Val`: empty string, empty list and `None` are falsy. -/
def Val.truthy : Val → Bool
  | .str s => s ≠ ""
  | .vlist l => l ≠ []
  | .vnone => false

/-- Python `str()` on `Val`, as applied by `urllib.parse.urlencode` to keys and
values (lists render by `repr`, with each element single-quoted). -/
def Val.pyStr : Val → String
  | .str s => s
  | .vlist l =>
      let q := String.singleton (Char.ofNat 39)
      "[" ++ String.intercalate ", " (l.map (fun x => q ++ x ++ q)) ++ "]"
  | .vnone => "None"

/-- Python `" ".join(v)`: a list of strings joins elementwise, a string joins
its characters, `None` raises `TypeError` (modelled as `Option.none`). -/
def Val.joinSpace : Val → Option String
  | .str s => some (String.intercalate " " (s.data.map String.singleton))
  | .vlist l => some (String.intercalate " " l)
  | .vnone => Option.none

/-- Uppercase hexadecimal digit, as `urllib.parse.quote` emits. -/
def hexUpper (n : Nat) : Char :=
  if n < 10 then Char.ofNat (48 + n) else Char.ofNat (55 + n)

/-- Percent-encoding of one byte in uppercase hex. -/
def percentByte (b : Nat) : String :=
  "%" ++ String.singleton (hexUpper (b / 16)) ++ String.singleton (hexUpper (b % 16))

/-- `urllib.parse.quote_plus` on one UTF-8 byte: ASCII alphanumerics and the
four always-safe characters `_.-~` pass through, a space becomes `+`, and every
other byte is percent-encoded. -/
def quotePlusByte (b : Nat) : String :=
  if (48 ≤ b ∧ b ≤ 57) ∨ (65 ≤ b ∧ b ≤ 90) ∨ (97 ≤ b ∧ b ≤ 122)
      ∨ b = 95 ∨ b = 46 ∨ b = 45 ∨ b = 126 then
    String.singleton (Char.ofNat b)
  else if b = 32 then "+"
  else percentByte b

/-- UTF-8 encoding of one character, as a list of byte values. -/
def utf8Bytes (c : Char) : List Nat :=
  let n := c.toNat
  if n < 128 then [n]
  else if n < 2048 then [192 + n / 64, 128 + n % 64]
  else if n < 65536 then [224 + n / 4096, 128 + (n / 64) % 64, 128 + n % 64]
  else [240 + n / 262144, 128 + (n / 4096) % 64, 128 + (n / 64) % 64, 128 + n % 64]

/-- UTF-8 encoding of a string (what Python `s.encode()` yields). -/
def strBytes (s : String) : List Nat :=
  (s.data.map utf8Bytes).flatten

/-- `urllib.parse.quote_plus` over the UTF-8 bytes of a string. -/
def quote_plus (s : String) : String :=
  String.join ((strBytes s).map quotePlusByte)

/-- `urllib.parse.urlencode` with its defaults: `quote_plus` each key and the
`str()` of each value, join pairs with `=` and entries with `&`. -/
def urlencode (q : Dict Val) : String :=
  String.intercalate "&" (q.map (fun kv => quote_plus kv.1 ++ "=" ++ quote_plus kv.2.pyStr))

/-- Ambient interpreter state the client reads: `__VERSION__` from
`nylas/_client_sdk_version.py` (a file not under src/) and the first three
components of `sys.version_info`. -/
structure SysEnv : Type where
  version : String
  pyMajor : Nat
  pyMinor : Nat
  pyRevision : Nat

/-- The request record `HttpClient._build_request` returns. -/
structure RequestRec : Type where
  method : String
  url : String
  headers : Dict String
deriving DecidableEq

/-- `HttpClient` from `nylas/handler/http_client.py`.  The `requests.Session`
object stored at construction is modelled by its behaviour: a function from
the built request and the optional JSON body to a response of type `β`. -/
structure HttpClient (β : Type) : Type where
  api_server : String
  api_key : String
  timeout : Nat
  session : RequestRec → Option (Dict Val) → β

/-- `HttpClient.__init__`: store the server, key and timeout, and the fresh
`requests.Session()` (passed explicitly, as the session is external state). -/
def HttpClient.init {β : Type} (api_server api_key : String) (timeout : Nat)
    (fresh_session : RequestRec → Option (Dict Val) → β) : HttpClient β :=
  ⟨api_server, api_key, timeout, fresh_session⟩

/-- `HttpClient._build_headers`: the four default headers, overridden and
extended by `extra_headers` via dict merge. -/
def HttpClient._build_headers {β : Type} (env : SysEnv) (cl : HttpClient β)
    (extra_headers : Option (Dict String)) : Dict String :=
  let extra_headers := extra_headers.getD []
  let user_agent_header :=
    "Nylas Python SDK " ++ env.version ++ " - " ++ toString env.pyMajor ++ "."
      ++ toString env.pyMinor ++ "." ++ toString env.pyRevision
  let headers : Dict String :=
    [("X-Nylas-API-Wrapper", "python"),
     ("User-Agent", user_agent_header),
     ("Content-type", "application/json"),
     ("Authorization", "Bearer " ++ cl.api_key)]
  dictUnion headers extra_headers

/-- `HttpClient._build_request`: url is server ++ path, with `?` and the
urlencoded query appended exactly when `query_params` is truthy. -/
def HttpClient._build_request {β : Type} (env : SysEnv) (cl : HttpClient β)
    (method path : String) (headers : Option (Dict String))
    (query_params : Option (Dict Val)) : RequestRec :=
  let url := cl.api_server ++ path
  let url :=
    match query_params with
    | some q => if q.isEmpty then url else url ++ "?" ++ urlencode q
    | Option.none => url
  { method := method, url := url, headers := HttpClient._build_headers env cl headers }

/-- `HttpClient._execute`: build the request, send it through the stored
session, and return the session's response as is (the source's TODOs note the
missing error handling and response validation).  The second component passes
the client state through: the method assigns to no field of `self`. -/
def HttpClient._execute {β : Type} (env : SysEnv) (cl : HttpClient β)
    (method path : String) (headers : Option (Dict String))
    (query_params : Option (Dict Val)) (request_body : Option (Dict Val)) :
    β × HttpClient β :=
  let request := HttpClient._build_request env cl method path headers query_params
  let response := cl.session request request_body
  (response, cl)

/-- `HttpClient.get`. -/
def HttpClient.get {β : Type} (env : SysEnv) (cl : HttpClient β) (path : String)
    (headers : Option (Dict String)) (query_params : Option (Dict Val)) :
    β × HttpClient β :=
  HttpClient._execute env cl "GET" path headers query_params Option.none

/-- `HttpClient.post`. -/
def HttpClient.post {β : Type} (env : SysEnv) (cl : HttpClient β) (path : String)
    (headers : Option (Dict String)) (query_params : Option (Dict Val))
    (request_body : Option (Dict Val)) : β × HttpClient β :=
  HttpClient._execute env cl "POST" path headers query_params request_body

/-- `HttpClient.put`. -/
def HttpClient.put {β : Type} (env : SysEnv) (cl : HttpClient β) (path : String)
    (headers : Option (Dict String)) (query_params : Option (Dict Val))
    (request_body : Option (Dict Val)) : β × HttpClient β :=
  HttpClient._execute env cl "PUT" path headers query_params request_body

/-- `HttpClient.patch`. -/
def HttpClient.patch {β : Type} (env : SysEnv) (cl : HttpClient β) (path : String)
    (headers : Option (Dict String)) (query_params : Option (Dict Val))
    (request_body : Option (Dict Val)) : β × HttpClient β :=
  HttpClient._execute env cl "PATCH" path headers query_params request_body

/-- `HttpClient.delete`. -/
def HttpClient.delete {β : Type} (env : SysEnv) (cl : HttpClient β) (path : String)
    (headers : Option (Dict String)) (query_params : Option (Dict Val)) :
    β × HttpClient β :=
  HttpClient._execute env cl "DELETE" path headers query_params Option.none

/-- Concrete environment used by witnesses. -/
def envW : SysEnv := ⟨"6.0.0", 3, 11, 4⟩

/-- Concrete client used by witnesses: its session answers `0` always. -/
def clW : HttpClient Nat := HttpClient.init "https://api.test" "sk" 30 (fun _ _ => 0)

/-- Looking up a key absent from the dict yields `Option.none`. -/
theorem dictGet_eq_none_of_not_mem {α : Type} (d : Dict α) (k : String)
    (h : k ∉ d.map Prod.fst) : dictGet d k = Option.none := by
  induction d with
  | nil => rfl
  | cons kv rest ih =>
      simp only [List.map_cons, List.mem_cons] at h
      push_neg at h
      have h1 : ¬ kv.1 = k := fun hh => h.1 hh.symm
      simp [dictGet, h1, ih h.2]

/-- Writing a key then reading it back yields the written value. -/
theorem dictGet_dictSet_self {α : Type} (d : Dict α) (k : String) (v : α) :
    dictGet (dictSet d k v) k = some v := by
  induction d with
  | nil => simp [dictGet, dictSet]
  | cons kv rest ih =>
      by_cases h : kv.1 = k <;> simp [dictGet, dictSet, h, ih]

/-- Writing one key leaves lookups of any other key unchanged. -/
theorem dictGet_dictSet_ne {α : Type} (d : Dict α) (k k' : String) (v : α)
    (hne : k' ≠ k) : dictGet (dictSet d k' v) k = dictGet d k := by
  induction d with
  | nil => simp [dictGet, dictSet, hne]
  | cons kv rest ih =>
      by_cases h : kv.1 = k' <;> by_cases h2 : kv.1 = k <;>
        simp_all [dictGet, dictSet]

/-- Lookup in a merged dict prefers the right operand, provided the right
operand has no duplicate keys (always true of a Python dict). -/
theorem dictGet_dictUnion {α : Type} (a b : Dict α) (k : String)
    (hb : (b.map Prod.fst).Nodup) :
    dictGet (dictUnion a b) k =
      match dictGet b k with
      | some v => some v
      | Option.none => dictGet a k := by
  induction b generalizing a with
  | nil => simp [dictUnion, dictGet]
  | cons kv rest ih =>
      simp only [List.map_cons, List.nodup_cons] at hb
      have hstep : dictUnion a (kv :: rest) = dictUnion (dictSet a kv.1 kv.2) rest := by
        simp [dictUnion]
      rw [hstep, ih _ hb.2]
      by_cases hk : kv.1 = k
      · subst hk
        have hrest : dictGet rest kv.1 = Option.none :=
          dictGet_eq_none_of_not_mem rest kv.1 hb.1
        simp [dictGet, hrest, dictGet_dictSet_self]
      · simp [dictGet, hk, dictGet_dictSet_ne a k kv.1 kv.2 hk]

/-- C1: `HttpClient._build_request` returns a request whose url is the
concatenation of `api_server` and `path`, followed by `?` and the urlencoded
`query_params` exactly when `query_params` is non-empty; when `query_params`
is empty or `None`, the url is just `api_server` concatenated with `path`. -/
theorem build_request_url_spec {β : Type} (env : SysEnv) (cl : HttpClient β)
    (method path : String) (headers : Option (Dict String))
    (query_params : Option (Dict Val)) :
    ((query_params = Option.none ∨ query_params = some []) →
        (HttpClient._build_request env cl method path headers query_params).url
          = cl.api_server ++ path)
  ∧ (∀ q : Dict Val, query_params = some q → q ≠ [] →
        (HttpClient._build_request env cl method path headers query_params).url
          = cl.api_server ++ path ++ "?" ++ urlencode q) := by
  constructor
  · rintro (rfl | rfl) <;> simp [HttpClient._build_request]
  · rintro q rfl hq
    simp [HttpClient._build_request, List.isEmpty_iff, hq]

/-- Witness for C1 at a concrete client and query. -/
theorem build_request_url_spec_witness :
    ((some [("a", Val.str "b c")] : Option (Dict Val)) = some [("a", Val.str "b c")]
        ∧ ([("a", Val.str "b c")] : Dict Val) ≠ [])
  ∧ (HttpClient._build_request envW clW "GET" "/v3/x" Option.none
        (some [("a", Val.str "b c")])).url = "https://api.test/v3/x?a=b+c" := by
  refine ⟨⟨rfl, by decide⟩, ?_⟩
  rw [(build_request_url_spec envW clW "GET" "/v3/x" Option.none
        (some [("a", Val.str "b c")])).2 [("a", Val.str "b c")] rfl (by decide)]
  decide

/-- C2: `HttpClient._build_headers` returns the merge of the four default
headers with `extra_headers`: a key present in `extra_headers` overrides the
default value and every key of `extra_headers` appears in the result; with no
`extra_headers` the result is exactly the four defaults. -/
theorem build_headers_spec {β : Type} (env : SysEnv) (cl : HttpClient β)
    (extra : Dict String) (hnd : (extra.map Prod.fst).Nodup) :
    (∀ k v, dictGet extra k = some v →
        dictGet (HttpClient._build_headers env cl (some extra)) k = some v)
  ∧ (∀ k, dictGet extra k = Option.none →
        dictGet (HttpClient._build_headers env cl (some extra)) k =
          dictGet [("X-Nylas-API-Wrapper", "python"),
            ("User-Agent", "Nylas Python SDK " ++ env.version ++ " - "
              ++ toString env.pyMajor ++ "." ++ toString env.pyMinor ++ "."
              ++ toString env.pyRevision),
            ("Content-type", "application/json"),
            ("Authorization", "Bearer " ++ cl.api_key)] k)
  ∧ HttpClient._build_headers env cl Option.none =
      [("X-Nylas-API-Wrapper", "python"),
       ("User-Agent", "Nylas Python SDK " ++ env.version ++ " - "
         ++ toString env.pyMajor ++ "." ++ toString env.pyMinor ++ "."
         ++ toString env.pyRevision),
       ("Content-type", "application/json"),
       ("Authorization", "Bearer " ++ cl.api_key)] := by
  refine ⟨?_, ?_, rfl⟩
  · intro k v hv
    simp only [HttpClient._build_headers, Option.getD_some]
    rw [dictGet_dictUnion _ _ _ hnd, hv]
  · intro k hk
    simp only [HttpClient._build_headers, Option.getD_some]
    rw [dictGet_dictUnion _ _ _ hnd, hk]

/-- Witness for C2: a concrete extra header overriding `Content-type`. -/
theorem build_headers_spec_witness :
    ((([("Content-type", "text/xml")] : Dict String).map Prod.fst).Nodup)
  ∧ dictGet (HttpClient._build_headers envW clW (some [("Content-type", "text/xml")]))
      "Content-type" = some "text/xml" :=
  ⟨by decide,
   (build_headers_spec envW clW [("Content-type", "text/xml")] (by decide)).1
     "Content-type" "text/xml" (by decide)⟩

/-- C3: `HttpClient._execute` returns the session's response unchanged,
whatever that response is; it performs no validation, parsing or error
handling, and leaves the client state as it was. -/
theorem execute_returns_session_response {β : Type} (env : SysEnv)
    (cl : HttpClient β) (method path : String) (headers : Option (Dict String))
    (query_params : Option (Dict Val)) (request_body : Option (Dict Val))
    (resp : β)
    (h : cl.session (HttpClient._build_request env cl method path headers query_params)
          request_body = resp) :
    HttpClient._execute env cl method path headers query_params request_body
      = (resp, cl) := by
  simp [HttpClient._execute, h]

/-- Witness for C3 at a concrete client whose session always answers `0`. -/
theorem execute_returns_session_response_witness :
    (clW.session (HttpClient._build_request envW clW "GET" "/x" Option.none Option.none)
        Option.none = 0)
  ∧ HttpClient._execute envW clW "GET" "/x" Option.none Option.none Option.none
      = (0, clW) :=
  ⟨rfl, execute_returns_session_response envW clW "GET" "/x" Option.none Option.none
    Option.none 0 rfl⟩

/-- C8: every `HttpClient` operation leaves the client — hence its
`api_server`, `api_key`, `timeout` and `session` fields — unchanged, and every
request is answered by the single session stored at construction. -/
theorem client_frame_spec {β : Type} (env : SysEnv) (api_server api_key : String)
    (timeout : Nat) (fresh_session : RequestRec → Option (Dict Val) → β)
    (cl : HttpClient β) (method path : String) (headers : Option (Dict String))
    (qp body : Option (Dict Val))
    (hcl : cl = HttpClient.init api_server api_key timeout fresh_session) :
    ((HttpClient.get env cl path headers qp).2 = cl
      ∧ (HttpClient.get env cl path headers qp).1
          = fresh_session (HttpClient._build_request env cl "GET" path headers qp) Option.none)
  ∧ ((HttpClient.post env cl path headers qp body).2 = cl
      ∧ (HttpClient.post env cl path headers qp body).1
          = fresh_session (HttpClient._build_request env cl "POST" path headers qp) body)
  ∧ ((HttpClient.put env cl path headers qp body).2 = cl
      ∧ (HttpClient.put env cl path headers qp body).1
          = fresh_session (HttpClient._build_request env cl "PUT" path headers qp) body)
  ∧ ((HttpClient.patch env cl path headers qp body).2 = cl
      ∧ (HttpClient.patch env cl path headers qp body).1
          = fresh_session (HttpClient._build_request env cl "PATCH" path headers qp) body)
  ∧ ((HttpClient.delete env cl path headers qp).2 = cl
      ∧ (HttpClient.delete env cl path headers qp).1
          = fresh_session (HttpClient._build_request env cl "DELETE" path headers qp) Option.none)
  ∧ ((HttpClient._execute env cl method path headers qp body).2 = cl
      ∧ (HttpClient._execute env cl method path headers qp body).1
          = fresh_session (HttpClient._build_request env cl method path headers qp) body) := by
  subst hcl
  exact ⟨⟨rfl, rfl⟩, ⟨rfl, rfl⟩, ⟨rfl, rfl⟩, ⟨rfl, rfl⟩, ⟨rfl, rfl⟩, ⟨rfl, rfl⟩⟩

/-- Witness for C8 at the concrete witness client. -/
theorem client_frame_spec_witness :
    (clW = HttpClient.init "https://api.test" "sk" 30 (fun _ _ => 0))
  ∧ (HttpClient.get envW clW "/x" Option.none Option.none).2 = clW :=
  ⟨rfl,
   (client_frame_spec envW "https://api.test" "sk" 30 (fun _ _ => 0) clW "GET" "/x"
      Option.none Option.none Option.none rfl).1.1⟩

/-- Right rotation of a 32-bit word held in a `Nat`. -/
def rotr32 (n x : Nat) : Nat :=
  ((x >>> n) ||| (x <<< (32 - n))) % 4294967296

/-- SHA-256 round constants (FIPS 180-4). -/
def sha256K : List Nat :=
  [1116352408, 1899447441, 3049323471, 3921009573, 961987163,
   1508970993, 2453635748, 2870763221, 3624381080, 310598401,
   607225278, 1426881987, 1925078388, 2162078206, 2614888103,
   3248222580, 3835390401, 4022224774, 264347078, 604807628,
   770255983, 1249150122, 1555081692, 1996064986, 2554220882,
   2821834349, 2952996808, 3210313671, 3336571891, 3584528711,
   113926993, 338241895, 666307205, 773529912, 1294757372,
   1396182291, 1695183700, 1986661051, 2177026350, 2456956037,
   2730485921, 2820302411, 3259730800, 3345764771, 3516065817,
   3600352804, 4094571909, 275423344, 430227734, 506948616,
   659060556, 883997877, 958139571, 1322822218, 1537002063,
   1747873779, 1955562222, 2024104815, 2227730452, 2361852424,
   2428436474, 2756734187, 3204031479, 3329325298]

/-- SHA-256 initial hash value (FIPS 180-4). -/
def sha256H0 : List Nat :=
  [1779033703, 3144134277, 1013904242, 2773480762,
   1359893119, 2600822924, 528734635, 1541459225]

/-- SHA-256 message padding: append `0x80`, zeros to 56 mod 64, and the
64-bit big-endian bit length. -/
def sha256pad (msg : List Nat) : List Nat :=
  let len := msg.length
  let bitlen := len * 8
  let zeros := (120 - ((len + 1) % 64)) % 64
  msg ++ [128] ++ List.replicate zeros 0 ++
    [bitlen / 72057594037927936 % 256, bitlen / 281474976710656 % 256,
     bitlen / 1099511627776 % 256, bitlen / 4294967296 % 256,
     bitlen / 16777216 % 256, bitlen / 65536 % 256,
     bitlen / 256 % 256, bitlen % 256]

/-- Group a byte list into big-endian 32-bit words. -/
def bytesToWords : List Nat → List Nat
  | b0 :: b1 :: b2 :: b3 :: rest =>
      (b0 * 16777216 + b1 * 65536 + b2 * 256 + b3) :: bytesToWords rest
  | _ => []

/-- Split a byte list into 64-byte chunks; `fuel` bounds the recursion and is
instantiated with the list length. -/
def chunks64fuel : Nat → List Nat → List (List Nat)
  | 0, _ => []
  | _, [] => []
  | fuel + 1, l@(_ :: _) => l.take 64 :: chunks64fuel fuel (l.drop 64)

/-- Split a byte list into 64-byte chunks. -/
def chunks64 (l : List Nat) : List (List Nat) :=
  chunks64fuel l.length l

/-- Extend the 16 message-schedule words to 64 (here `fuel` counts the 48
extension steps). -/
def sha256schedule (w : List Nat) : Nat → List Nat
  | 0 => w
  | fuel + 1 =>
      let n := w.length
      let s0 := rotr32 7 (w.getD (n - 15) 0) ^^^ rotr32 18 (w.getD (n - 15) 0)
                  ^^^ (w.getD (n - 15) 0 >>> 3)
      let s1 := rotr32 17 (w.getD (n - 2) 0) ^^^ rotr32 19 (w.getD (n - 2) 0)
                  ^^^ (w.getD (n - 2) 0 >>> 10)
      let wi := (w.getD (n - 16) 0 + s0 + w.getD (n - 7) 0 + s1) % 4294967296
      sha256schedule (w ++ [wi]) fuel

/-- The 64 compression rounds, folding the schedule and the round constants
over the eight working variables. -/
def sha256rounds : List Nat → List Nat → List Nat → List Nat
  | wi :: wrest, ki :: krest, [a, b, c, d, e, f, g, h] =>
      let s1 := rotr32 6 e ^^^ rotr32 11 e ^^^ rotr32 25 e
      let ch := (e &&& f) ^^^ ((e ^^^ 4294967295) &&& g)
      let temp1 := (h + s1 + ch + ki + wi) % 4294967296
      let s0 := rotr32 2 a ^^^ rotr32 13 a ^^^ rotr32 22 a
      let maj := (a &&& b) ^^^ (a &&& c) ^^^ (b &&& c)
      let temp2 := (s0 + maj) % 4294967296
      sha256rounds wrest krest
        [(temp1 + temp2) % 4294967296, a, b, c, (d + temp1) % 4294967296, e, f, g]
  | _, _, st => st

/-- Process the chunks, updating the eight-word state per chunk. -/
def sha256process (h0 : List Nat) (chunks : List (List Nat)) : List Nat :=
  chunks.foldl
    (fun h chunk =>
      let w := sha256schedule (bytesToWords chunk) 48
      let st := sha256rounds w sha256K h
      List.zipWith (fun x y => (x + y) % 4294967296) h st)
    h0

/-- SHA-256 digest of a byte list, as a list of 32 byte values
(models `hashlib.sha256(...).digest()`). -/
def sha256 (msg : List Nat) : List Nat :=
  let hh := sha256process sha256H0 (chunks64 (sha256pad msg))
  (hh.map (fun w => [w / 16777216 % 256, w / 65536 % 256, w / 256 % 256, w % 256])).flatten

/-- The base64 alphabet. -/
def b64char (n : Nat) : Char :=
  "ABCDEFGHIJKLMNOPQRSTUVWXYZabcdefghijklmnopqrstuvwxyz0123456789+/".data.getD n (Char.ofNat 65)

/-- Standard base64 encoding with padding (models `base64.b64encode`). -/
def b64encode : List Nat → String
  | [] => ""
  | [a] =>
      String.mk [b64char (a / 4), b64char (a % 4 * 16)] ++ "=="
  | [a, b] =>
      String.mk [b64char (a / 4), b64char (a % 4 * 16 + b / 16), b64char (b % 16 * 4)] ++ "="
  | a :: b :: c :: rest =>
      String.mk [b64char (a / 4), b64char (a % 4 * 16 + b / 16),
        b64char (b % 16 * 4 + c / 64), b64char (c % 64)] ++ b64encode rest

/-- Sanity anchor for the library models: the base64-encoded SHA-256 digest of
the empty string is the published FIPS / RFC 4648 test value. -/
theorem sha256_b64_empty_vector :
    b64encode (sha256 (strBytes "")) = "47DEQpj8HBSa+/TImW+5JCeuQeRkm5NMpJWZG3hSuFU=" := by
  decide

/-- `_hash_pkce_secret` from `nylas/resources/auth.py`: base64 of the SHA-256
digest of the secret's UTF-8 encoding. -/
def _hash_pkce_secret (secret : String) : String :=
  b64encode (sha256 (strBytes secret))

/-- `_build_query` from `nylas/resources/auth.py`.  The source mutates
`config` in place and returns it; here the returned dict is both the result
and the caller's dict after the call.  The two subscript lookups model the
possible `KeyError`s. -/
def _build_query (config : Dict Val) : Option (Dict Val) := do
  let config := dictSet config "response_type" (Val.str "code")
  let access ← dictGet config "access_type"
  let config := if access.truthy then config else dictSet config "access_type" (Val.str "online")
  let scopes ← dictGet config "scopes"
  if scopes.truthy then
    let joined ← scopes.joinSpace
    pure (dictSet config "scopes" (Val.str joined))
  else
    pure config

/-- `_build_query_with_pkce`: `params` aliases `config`, so this extends the
same dict with the code challenge entries. -/
def _build_query_with_pkce (config : Dict Val) (secret_hash : String) : Option (Dict Val) := do
  let params ← _build_query config
  let params := dictSet params "code_challenge" (Val.str secret_hash)
  pure (dictSet params "code_challenge_method" (Val.str "s256"))

/-- `_build_query_with_admin_consent`: `params` aliases `config`, so the
`credentialId` subscript reads from the dict `_build_query` just mutated. -/
def _build_query_with_admin_consent (config : Dict Val) : Option (Dict Val) := do
  let params ← _build_query config
  let params := dictSet params "response_type" (Val.str "adminconsent")
  let cred ← dictGet params "credentialId"
  pure (dictSet params "credential_id" cred)

/-- The `PkceAuthUrl` returned by `Auth.url_for_oauth2_pkce`. -/
structure PkceAuthUrl : Type where
  secret : String
  secret_hash : String
  url : String
deriving DecidableEq

/-- `Auth._url_auth_builder`: format the auth URL from the client's server and
the urlencoded query. -/
def Auth._url_auth_builder {β : Type} (cl : HttpClient β) (query : Dict Val) : String :=
  cl.api_server ++ "/v3/connect/auth?" ++ urlencode query

/-- `Auth._get_token`: POST the request body to `/v3/connect/token` through
the client.  The source then wraps the response in
`CodeExchangeResponse.from_dict` (defined in `nylas/models/auth.py`, a file
not under src/); we return the raw session response. -/
def Auth._get_token {β : Type} (env : SysEnv) (cl : HttpClient β)
    (request_body : Dict Val) : β × HttpClient β :=
  HttpClient._execute env cl "POST" "/v3/connect/token" Option.none Option.none
    (some request_body)

/-- `Auth.url_for_oauth2`: the auth URL, paired with the caller's `config`
after the call (`_build_query` mutates it in place). -/
def Auth.url_for_oauth2 {β : Type} (cl : HttpClient β) (config : Dict Val) :
    Option (String × Dict Val) := do
  let query ← _build_query config
  pure (Auth._url_auth_builder cl query, query)

/-- `Auth.url_for_oauth2_pkce`: the secret is `str(uuid.uuid4())` in the
source; the randomness is passed explicitly as the `secret` parameter.  The
result is paired with the caller's `config` after the call. -/
def Auth.url_for_oauth2_pkce {β : Type} (cl : HttpClient β) (secret : String)
    (config : Dict Val) : Option (PkceAuthUrl × Dict Val) := do
  let secret_hash := _hash_pkce_secret secret
  let query ← _build_query_with_pkce config secret_hash
  pure (⟨secret, secret_hash, Auth._url_auth_builder cl query⟩, query)

/-- `Auth.url_for_admin_consent`: the source first builds a fresh dict adding
the provider entry over a copy of `config`, and `_build_query_with_admin_consent`
mutates that fresh dict — so the caller's `config` comes back unchanged. -/
def Auth.url_for_admin_consent {β : Type} (cl : HttpClient β) (config : Dict Val) :
    Option (String × Dict Val) := do
  let config_with_provider := dictUnion [("provider", Val.str "microsoft")] config
  let query ← _build_query_with_admin_consent config_with_provider
  pure (Auth._url_auth_builder cl query, config)

/-- `Auth.exchange_code_for_token`: `dict(request)` copies the caller's dict,
the copy gets the grant type and is POSTed; the caller's dict is returned
unchanged. -/
def Auth.exchange_code_for_token {β : Type} (env : SysEnv) (cl : HttpClient β)
    (request : Dict Val) : (β × HttpClient β) × Dict Val :=
  let request_body := dictSet request "grant_type" (Val.str "authorization_code")
  (Auth._get_token env cl request_body, request)

/-- `Auth.refresh_access_token`: same shape as the code exchange, with the
`refresh_token` grant type. -/
def Auth.refresh_access_token {β : Type} (env : SysEnv) (cl : HttpClient β)
    (request : Dict Val) : (β × HttpClient β) × Dict Val :=
  let request_body := dictSet request "grant_type" (Val.str "refresh_token")
  (Auth._get_token env cl request_body, request)

/-- JSON values inside a list-response dict: an array of raw items of type `I`
or a primitive (rendered as a string). -/
inductive JVal (I : Type) : Type where
  | arr : List I → JVal I
  | prim : String → JVal I
deriving DecidableEq

/-- Iterating a JSON value as the `for` loop does: only arrays iterate here
(a non-list `data` would be a `TypeError` in context). -/
def JVal.asArr {I : Type} : JVal I → Option (List I)
  | .arr l => some l
  | .prim _ => Option.none

/-- `ListResponse` from `nylas/models/list_response.py`: the converted data,
the request id and the optional cursor. -/
structure ListResponse (T J : Type) : Type where
  data : List T
  request_id : J
  next_cursor : Option J
deriving DecidableEq

/-- `ListResponse.from_dict`: convert each element of `resp["data"]` through
the generic type's `from_dict`, take `request_id` by subscript and
`next_cursor` by `.get` with default `None`. -/
def ListResponse.from_dict {I T : Type} (resp : Dict (JVal I))
    (generic_from_dict : I → T) : Option (ListResponse T (JVal I)) := do
  let dv ← dictGet resp "data"
  let items ← dv.asArr
  let request_id ← dictGet resp "request_id"
  pure { data := items.map generic_from_dict, request_id := request_id,
         next_cursor := dictGet resp "next_cursor" }

/-- Modelled from the spec: `ListableApiResource.list` lives in
`nylas/handler/api_resources.py`, which is not under src/.  Per the spec the
resource base classes provide the CRUD verbs as direct one-to-one mappings to
HTTP verbs against the given path through the shared HTTP client, so `list`
issues a GET for `path`; the JSON list-response parsing happens downstream. -/
def ListableApiResource.list {β : Type} (env : SysEnv) (cl : HttpClient β)
    (path : String) : β × HttpClient β :=
  HttpClient.get env cl path Option.none Option.none

/-- `Calendars.list` from `nylas/resources/calendars.py`: list calendars under
the grant identified by `identifier`. -/
def Calendars.list {β : Type} (env : SysEnv) (cl : HttpClient β)
    (identifier : String) : β × HttpClient β :=
  ListableApiResource.list env cl ("/v3/grants/" ++ identifier ++ "/calendars")

/-- A truthy `Val` always joins successfully (`None` is the only join failure
and it is falsy). -/
theorem Val.joinSpace_isSome_of_truthy (v : Val) (h : v.truthy = true) :
    ∃ j, v.joinSpace = some j := by
  cases v with
  | str s => exact ⟨_, rfl⟩
  | vlist l => exact ⟨_, rfl⟩
  | vnone => simp [Val.truthy] at h

/-- Full characterization of `_build_query` when the two looked-up keys are
present: it succeeds, sets `response_type`, rewrites falsy `access_type` to
`online`, space-joins truthy `scopes`, and preserves every other entry. -/
theorem build_query_props (config : Dict Val) (av sv : Val)
    (ha : dictGet config "access_type" = some av)
    (hs : dictGet config "scopes" = some sv) :
    ∃ q, _build_query config = some q
      ∧ dictGet q "response_type" = some (Val.str "code")
      ∧ (av.truthy = false → dictGet q "access_type" = some (Val.str "online"))
      ∧ (av.truthy = true → dictGet q "access_type" = some av)
      ∧ (sv.truthy = true → ∀ j, sv.joinSpace = some j →
            dictGet q "scopes" = some (Val.str j))
      ∧ (sv.truthy = false → dictGet q "scopes" = some sv)
      ∧ (∀ k, k ≠ "response_type" → k ≠ "access_type" → k ≠ "scopes" →
            dictGet q k = dictGet config k) := by
  have h1 : dictGet (dictSet config "response_type" (Val.str "code")) "access_type"
      = some av := by
    rw [dictGet_dictSet_ne _ _ _ _ (by decide)]; exact ha
  by_cases hat : av.truthy = true
  · have h2 : dictGet (dictSet config "response_type" (Val.str "code")) "scopes"
        = some sv := by
      rw [dictGet_dictSet_ne _ _ _ _ (by decide)]; exact hs
    by_cases hst : sv.truthy = true
    · obtain ⟨j, hj⟩ := Val.joinSpace_isSome_of_truthy sv hst
      refine ⟨dictSet (dictSet config "response_type" (Val.str "code")) "scopes"
          (Val.str j), ?_, ?_, ?_, ?_, ?_, ?_, ?_⟩
      · simp [_build_query, h1, hat, h2, hst, hj]
      · rw [dictGet_dictSet_ne _ _ _ _ (by decide)]
        exact dictGet_dictSet_self _ _ _
      · intro h; rw [h] at hat; exact absurd hat (by simp)
      · intro _
        rw [dictGet_dictSet_ne _ _ _ _ (by decide)]; exact h1
      · intro _ j2 hj2
        rw [hj] at hj2
        cases hj2
        exact dictGet_dictSet_self _ _ _
      · intro h; rw [h] at hst; exact absurd hst (by simp)
      · intro k hk1 hk2 hk3
        rw [dictGet_dictSet_ne _ _ _ _ (fun hh => hk3 hh.symm),
          dictGet_dictSet_ne _ _ _ _ (fun hh => hk1 hh.symm)]
    · refine ⟨dictSet config "response_type" (Val.str "code"), ?_, ?_, ?_, ?_, ?_, ?_, ?_⟩
      · simp [_build_query, h1, hat, h2, hst]
      · exact dictGet_dictSet_self _ _ _
      · intro h; rw [h] at hat; exact absurd hat (by simp)
      · intro _; exact h1
      · intro h; exact absurd h hst
      · intro _; exact h2
      · intro k hk1 _ _
        rw [dictGet_dictSet_ne _ _ _ _ (fun hh => hk1 hh.symm)]
  · have h1b : dictGet (dictSet (dictSet config "response_type" (Val.str "code"))
        "access_type" (Val.str "online")) "scopes" = some sv := by
      rw [dictGet_dictSet_ne _ _ _ _ (by decide),
        dictGet_dictSet_ne _ _ _ _ (by decide)]
      exact hs
    by_cases hst : sv.truthy = true
    · obtain ⟨j, hj⟩ := Val.joinSpace_isSome_of_truthy sv hst
      refine ⟨dictSet (dictSet (dictSet config "response_type" (Val.str "code"))
          "access_type" (Val.str "online")) "scopes" (Val.str j), ?_, ?_, ?_, ?_, ?_, ?_, ?_⟩
      · simp [_build_query, h1, hat, h1b, hst, hj]
      · rw [dictGet_dictSet_ne _ _ _ _ (by decide),
          dictGet_dictSet_ne _ _ _ _ (by decide)]
        exact dictGet_dictSet_self _ _ _
      · intro _
        rw [dictGet_dictSet_ne _ _ _ _ (by decide)]
        exact dictGet_dictSet_self _ _ _
      · intro h; rw [h] at hat; exact absurd rfl hat
      · intro _ j2 hj2
        rw [hj] at hj2
        cases hj2
        exact dictGet_dictSet_self _ _ _
      · intro h; rw [h] at hst; exact absurd hst (by simp)
      · intro k hk1 hk2 hk3
        rw [dictGet_dictSet_ne _ _ _ _ (fun hh => hk3 hh.symm),
          dictGet_dictSet_ne _ _ _ _ (fun hh => hk2 hh.symm),
          dictGet_dictSet_ne _ _ _ _ (fun hh => hk1 hh.symm)]
    · refine ⟨dictSet (dictSet config "response_type" (Val.str "code"))
          "access_type" (Val.str "online"), ?_, ?_, ?_, ?_, ?_, ?_, ?_⟩
      · simp [_build_query, h1, hat, h1b, hst]
      · rw [dictGet_dictSet_ne _ _ _ _ (by decide)]
        exact dictGet_dictSet_self _ _ _
      · intro _; exact dictGet_dictSet_self _ _ _
      · intro h; rw [h] at hat; exact absurd rfl hat
      · intro h; exact absurd h hst
      · intro _; exact h1b
      · intro k hk1 hk2 _
        rw [dictGet_dictSet_ne _ _ _ _ (fun hh => hk2 hh.symm),
          dictGet_dictSet_ne _ _ _ _ (fun hh => hk1 hh.symm)]

/-- Concrete config used by witnesses for the auth claims. -/
def cfgW : Dict Val :=
  [("access_type", Val.vnone), ("scopes", Val.vlist ["a", "b"]), ("state", Val.str "x")]

/-- C4: the resource wrappers address fixed paths — `Auth._url_auth_builder`
builds under `/v3/connect/auth`, `Auth._get_token` POSTs to
`/v3/connect/token`, and `Calendars.list` requests
`/v3/grants/identifier/calendars`. -/
theorem fixed_paths_spec {β : Type} (env : SysEnv) (cl : HttpClient β) :
    (∀ query : Dict Val, Auth._url_auth_builder cl query
        = cl.api_server ++ "/v3/connect/auth?" ++ urlencode query)
  ∧ (∀ body : Dict Val,
        Auth._get_token env cl body
          = (cl.session (HttpClient._build_request env cl "POST" "/v3/connect/token"
              Option.none Option.none) (some body), cl)
        ∧ (HttpClient._build_request env cl "POST" "/v3/connect/token"
            Option.none Option.none).url = cl.api_server ++ "/v3/connect/token")
  ∧ (∀ identifier : String,
        Calendars.list env cl identifier
          = (cl.session (HttpClient._build_request env cl "GET"
              ("/v3/grants/" ++ identifier ++ "/calendars") Option.none Option.none)
              Option.none, cl)
        ∧ (HttpClient._build_request env cl "GET"
            ("/v3/grants/" ++ identifier ++ "/calendars") Option.none Option.none).url
            = cl.api_server ++ ("/v3/grants/" ++ identifier ++ "/calendars")) :=
  ⟨fun _ => rfl, fun _ => ⟨rfl, rfl⟩, fun _ => ⟨rfl, rfl⟩⟩

/-- C5: `ListResponse.from_dict` converts `data` elementwise in order, copies
`request_id`, and takes `next_cursor` when present and `None` otherwise. -/
theorem list_response_from_dict_spec {I T : Type} (resp : Dict (JVal I))
    (generic_from_dict : I → T) (items : List I) (rid : JVal I)
    (hd : dictGet resp "data" = some (JVal.arr items))
    (hr : dictGet resp "request_id" = some rid) :
    ∃ r, ListResponse.from_dict resp generic_from_dict = some r
      ∧ r.data = items.map generic_from_dict
      ∧ r.data.length = items.length
      ∧ r.request_id = rid
      ∧ (∀ v, dictGet resp "next_cursor" = some v → r.next_cursor = some v)
      ∧ (dictGet resp "next_cursor" = Option.none → r.next_cursor = Option.none) := by
  refine ⟨{ data := items.map generic_from_dict, request_id := rid,
            next_cursor := dictGet resp "next_cursor" }, ?_, rfl, by simp, rfl, ?_, ?_⟩
  · simp [ListResponse.from_dict, hd, hr, JVal.asArr]
  · intro v hv; simpa using hv
  · intro hv; simpa using hv

/-- Witness for C5 at a concrete two-element response. -/
theorem list_response_from_dict_spec_witness :
    (dictGet [("data", JVal.arr [1, 2]), ("request_id", JVal.prim "rid")] "data"
        = some (JVal.arr [1, 2])
      ∧ dictGet [("data", JVal.arr [1, 2]), ("request_id", JVal.prim "rid")] "request_id"
        = some (JVal.prim "rid"))
  ∧ ∃ r, ListResponse.from_dict
        [("data", JVal.arr [1, 2]), ("request_id", (JVal.prim "rid" : JVal Nat))]
        (fun n => n + 1) = some r
      ∧ r.data = [2, 3] := by
  refine ⟨⟨rfl, rfl⟩, ?_⟩
  obtain ⟨r, hmk, hdata, -, -, -, -⟩ :=
    list_response_from_dict_spec
      [("data", JVal.arr [1, 2]), ("request_id", (JVal.prim "rid" : JVal Nat))]
      (fun n => n + 1) [1, 2] (JVal.prim "rid") rfl rfl
  exact ⟨r, hmk, by rw [hdata]; rfl⟩

/-- C6: for a config containing `access_type` and `scopes`, `_build_query`
(and hence `Auth.url_for_oauth2`) sets `response_type` to `code`, rewrites a
falsy `access_type` to `online` and keeps a truthy one, space-joins a
non-empty scopes list, and preserves every other entry. -/
theorem build_query_spec {β : Type} (cl : HttpClient β) (config : Dict Val)
    (av sv : Val)
    (ha : dictGet config "access_type" = some av)
    (hs : dictGet config "scopes" = some sv) :
    ∃ q, _build_query config = some q
      ∧ Auth.url_for_oauth2 cl config = some (Auth._url_auth_builder cl q, q)
      ∧ dictGet q "response_type" = some (Val.str "code")
      ∧ (av.truthy = false → dictGet q "access_type" = some (Val.str "online"))
      ∧ (av.truthy = true → dictGet q "access_type" = some av)
      ∧ (∀ l : List String, sv = Val.vlist l → l ≠ [] →
            dictGet q "scopes" = some (Val.str (String.intercalate " " l)))
      ∧ (∀ k, k ≠ "response_type" → k ≠ "access_type" → k ≠ "scopes" →
            dictGet q k = dictGet config k) := by
  obtain ⟨q, hq, p1, p2, p3, p4, p5, p6⟩ := build_query_props config av sv ha hs
  refine ⟨q, hq, ?_, p1, p2, p3, ?_, p6⟩
  · simp [Auth.url_for_oauth2, hq]
  · intro l hl hlne
    subst hl
    exact p4 (by simp [Val.truthy, hlne]) _ rfl

/-- Witness for C6 at a concrete config with falsy access type and a
two-element scopes list. -/
theorem build_query_spec_witness :
    (dictGet cfgW "access_type" = some Val.vnone
      ∧ dictGet cfgW "scopes" = some (Val.vlist ["a", "b"]))
  ∧ ∃ q, _build_query cfgW = some q
      ∧ dictGet q "scopes" = some (Val.str "a b")
      ∧ dictGet q "state" = some (Val.str "x") := by
  refine ⟨⟨rfl, rfl⟩, ?_⟩
  obtain ⟨q, hq, -, -, -, -, p5, p6⟩ :=
    build_query_spec clW cfgW Val.vnone (Val.vlist ["a", "b"]) rfl rfl
  have hsc := p5 ["a", "b"] rfl (by decide)
  have hst := p6 "state" (by decide) (by decide) (by decide)
  exact ⟨q, hq, by rw [hsc]; rfl, by rw [hst]; rfl⟩

/-- C7: `_hash_pkce_secret` is the standard base64 encoding of the SHA-256
digest of the secret's UTF-8 bytes, and `Auth.url_for_oauth2_pkce` returns a
`PkceAuthUrl` whose hashed secret is `_hash_pkce_secret` of its secret and
whose URL query carries `code_challenge` equal to that hash and
`code_challenge_method` equal to `s256`. -/
theorem pkce_spec {β : Type} (cl : HttpClient β) (secret : String)
    (config : Dict Val) (av sv : Val)
    (ha : dictGet config "access_type" = some av)
    (hs : dictGet config "scopes" = some sv) :
    _hash_pkce_secret secret = b64encode (sha256 (strBytes secret))
  ∧ ∃ q, Auth.url_for_oauth2_pkce cl secret config
        = some (⟨secret, _hash_pkce_secret secret, Auth._url_auth_builder cl q⟩, q)
      ∧ dictGet q "code_challenge" = some (Val.str (_hash_pkce_secret secret))
      ∧ dictGet q "code_challenge_method" = some (Val.str "s256") := by
  obtain ⟨q, hq, -, -, -, -, -, -⟩ := build_query_props config av sv ha hs
  refine ⟨rfl, dictSet (dictSet q "code_challenge" (Val.str (_hash_pkce_secret secret)))
      "code_challenge_method" (Val.str "s256"), ?_, ?_, ?_⟩
  · simp [Auth.url_for_oauth2_pkce, _build_query_with_pkce, hq]
  · rw [dictGet_dictSet_ne _ _ _ _ (by decide)]
    exact dictGet_dictSet_self _ _ _
  · exact dictGet_dictSet_self _ _ _

/-- Witness for C7 at a concrete secret and config. -/
theorem pkce_spec_witness :
    (dictGet cfgW "access_type" = some Val.vnone
      ∧ dictGet cfgW "scopes" = some (Val.vlist ["a", "b"]))
  ∧ (_hash_pkce_secret "s" = b64encode (sha256 (strBytes "s"))
      ∧ ∃ q, Auth.url_for_oauth2_pkce clW "s" cfgW
            = some (⟨"s", _hash_pkce_secret "s", Auth._url_auth_builder clW q⟩, q)
          ∧ dictGet q "code_challenge" = some (Val.str (_hash_pkce_secret "s"))
          ∧ dictGet q "code_challenge_method" = some (Val.str "s256")) :=
  ⟨⟨rfl, rfl⟩, pkce_spec clW "s" cfgW Val.vnone (Val.vlist ["a", "b"]) rfl rfl⟩

/-- Concrete admin-consent config for the C9 counterexample. -/
def cfgA : Dict Val :=
  [("access_type", Val.str "online"), ("scopes", Val.vlist ["a"]),
   ("credentialId", Val.str "cid")]

/-- Counterexample to C9 as stated: after `Auth.url_for_admin_consent` the
caller's config dict is NOT modified — the source merges `config` into a
fresh dict carrying the provider entry and `_build_query` mutates that fresh
dict — so at this concrete input the caller's dict comes back identical, with
no `response_type` entry at all. -/
theorem admin_consent_no_mutation_cex :
    (Auth.url_for_admin_consent clW cfgA).map Prod.snd = some cfgA
  ∧ dictGet cfgA "response_type" = Option.none := by
  constructor
  · rfl
  · rfl

/-- C9 (amended): `_build_query` mutates its config argument in place, so
after `Auth.url_for_oauth2` or `url_for_oauth2_pkce` the caller's config has
been modified — `response_type` added or overwritten, a falsy `access_type`
rewritten to `online`, a non-empty scopes list space-joined — while
`url_for_admin_consent` mutates only the fresh provider-carrying copy and
leaves the caller's config unchanged, and `exchange_code_for_token` and
`refresh_access_token` copy their request and leave it unchanged. -/
theorem mutation_frame_spec {β : Type} (env : SysEnv) (cl : HttpClient β)
    (config request : Dict Val) (av sv : Val) (secret : String)
    (ha : dictGet config "access_type" = some av)
    (hs : dictGet config "scopes" = some sv) :
    (∃ u q, Auth.url_for_oauth2 cl config = some (u, q)
        ∧ dictGet q "response_type" = some (Val.str "code")
        ∧ (av.truthy = false → dictGet q "access_type" = some (Val.str "online"))
        ∧ (∀ l : List String, sv = Val.vlist l → l ≠ [] →
              dictGet q "scopes" = some (Val.str (String.intercalate " " l))))
  ∧ (∃ p q, Auth.url_for_oauth2_pkce cl secret config = some (p, q)
        ∧ dictGet q "response_type" = some (Val.str "code")
        ∧ (av.truthy = false → dictGet q "access_type" = some (Val.str "online"))
        ∧ (∀ l : List String, sv = Val.vlist l → l ≠ [] →
              dictGet q "scopes" = some (Val.str (String.intercalate " " l))))
  ∧ (∀ r, Auth.url_for_admin_consent cl config = some r → r.2 = config)
  ∧ (Auth.exchange_code_for_token env cl request).2 = request
  ∧ (Auth.refresh_access_token env cl request).2 = request := by
  obtain ⟨q, hq, p1, p2, p3, p4, p5, p6⟩ := build_query_props config av sv ha hs
  refine ⟨⟨Auth._url_auth_builder cl q, q, ?_, p1, p2, ?_⟩, ?_, ?_, rfl, rfl⟩
  · simp [Auth.url_for_oauth2, hq]
  · intro l hl hlne
    subst hl
    exact p4 (by simp [Val.truthy, hlne]) _ rfl
  · refine ⟨⟨secret, _hash_pkce_secret secret, Auth._url_auth_builder cl
        (dictSet (dictSet q "code_challenge" (Val.str (_hash_pkce_secret secret)))
          "code_challenge_method" (Val.str "s256"))⟩,
      dictSet (dictSet q "code_challenge" (Val.str (_hash_pkce_secret secret)))
        "code_challenge_method" (Val.str "s256"), ?_, ?_, ?_, ?_⟩
    · simp [Auth.url_for_oauth2_pkce, _build_query_with_pkce, hq]
    · rw [dictGet_dictSet_ne _ _ _ _ (by decide),
        dictGet_dictSet_ne _ _ _ _ (by decide)]
      exact p1
    · intro h
      rw [dictGet_dictSet_ne _ _ _ _ (by decide),
        dictGet_dictSet_ne _ _ _ _ (by decide)]
      exact p2 h
    · intro l hl hlne
      subst hl
      rw [dictGet_dictSet_ne _ _ _ _ (by decide),
        dictGet_dictSet_ne _ _ _ _ (by decide)]
      exact p4 (by simp [Val.truthy, hlne]) _ rfl
  · intro r hr
    simp only [Auth.url_for_admin_consent, bind, Option.bind] at hr
    rcases hbq : _build_query_with_admin_consent
        (dictUnion [("provider", Val.str "microsoft")] config) with _ | q2
    · rw [hbq] at hr; cases hr
    · rw [hbq] at hr
      cases hr
      rfl

/-- Witness for the amended C9 at a concrete config and request. -/
theorem mutation_frame_spec_witness :
    (dictGet cfgW "access_type" = some Val.vnone
      ∧ dictGet cfgW "scopes" = some (Val.vlist ["a", "b"]))
  ∧ (Auth.exchange_code_for_token envW clW [("code", Val.str "c")]).2
      = [("code", Val.str "c")] :=
  ⟨⟨rfl, rfl⟩,
   (mutation_frame_spec envW clW cfgW [("code", Val.str "c")] Val.vnone
      (Val.vlist ["a", "b"]) "s" rfl rfl).2.2.2.1⟩

/-- `_build_query` raises `KeyError` (returns `none`) when `access_type` is
absent. -/
theorem build_query_none_access (config : Dict Val)
    (ha : dictGet config "access_type" = Option.none) :
    _build_query config = Option.none := by
  have h1 : dictGet (dictSet config "response_type" (Val.str "code")) "access_type"
      = Option.none := by
    rw [dictGet_dictSet_ne _ _ _ _ (by decide)]; exact ha
  simp [_build_query, h1]

/-- `_build_query` raises `KeyError` (returns `none`) when `access_type` is
present but `scopes` is absent. -/
theorem build_query_none_scopes (config : Dict Val) (av : Val)
    (ha : dictGet config "access_type" = some av)
    (hs : dictGet config "scopes" = Option.none) :
    _build_query config = Option.none := by
  have h1 : dictGet (dictSet config "response_type" (Val.str "code")) "access_type"
      = some av := by
    rw [dictGet_dictSet_ne _ _ _ _ (by decide)]; exact ha
  by_cases hat : av.truthy = true
  · have h2 : dictGet (dictSet config "response_type" (Val.str "code")) "scopes"
        = Option.none := by
      rw [dictGet_dictSet_ne _ _ _ _ (by decide)]; exact hs
    simp [_build_query, h1, hat, h2]
  · have h2 : dictGet (dictSet (dictSet config "response_type" (Val.str "code"))
        "access_type" (Val.str "online")) "scopes" = Option.none := by
      rw [dictGet_dictSet_ne _ _ _ _ (by decide),
        dictGet_dictSet_ne _ _ _ _ (by decide)]
      exact hs
    simp [_build_query, h1, hat, h2]

/-- Merging the provider entry under a duplicate-free config changes no other
key's lookup. -/
theorem dictGet_union_provider (config : Dict Val) (k : String)
    (hnd : (config.map Prod.fst).Nodup) (hk : k ≠ "provider") :
    dictGet (dictUnion [("provider", Val.str "microsoft")] config) k
      = dictGet config k := by
  rw [dictGet_dictUnion _ _ _ hnd]
  cases h : dictGet config k with
  | none =>
      have hne : ¬ ("provider" = k) := fun hh => hk hh.symm
      simp [dictGet, hne]
  | some v => rfl

/-- C10: `url_for_oauth2` and `url_for_oauth2_pkce` implicitly require
`access_type` and `scopes` in the config (and `url_for_admin_consent`
additionally `credentialId`): an absent key gives a `KeyError` (`none`), and
with all required keys present no exception is raised. -/
theorem auth_url_key_preconditions {β : Type} (cl : HttpClient β) (config : Dict Val) :
    ((dictGet config "access_type").isSome = true →
        (dictGet config "scopes").isSome = true →
        (Auth.url_for_oauth2 cl config).isSome = true
      ∧ (∀ secret, (Auth.url_for_oauth2_pkce cl secret config).isSome = true))
  ∧ (dictGet config "access_type" = Option.none →
        Auth.url_for_oauth2 cl config = Option.none
      ∧ (∀ secret, Auth.url_for_oauth2_pkce cl secret config = Option.none))
  ∧ ((dictGet config "access_type").isSome = true →
        dictGet config "scopes" = Option.none →
        Auth.url_for_oauth2 cl config = Option.none
      ∧ (∀ secret, Auth.url_for_oauth2_pkce cl secret config = Option.none))
  ∧ ((config.map Prod.fst).Nodup →
        ((dictGet config "access_type").isSome = true →
            (dictGet config "scopes").isSome = true →
            (dictGet config "credentialId").isSome = true →
            (Auth.url_for_admin_consent cl config).isSome = true)
      ∧ (dictGet config "access_type" = Option.none →
            Auth.url_for_admin_consent cl config = Option.none)
      ∧ ((dictGet config "access_type").isSome = true →
            dictGet config "scopes" = Option.none →
            Auth.url_for_admin_consent cl config = Option.none)
      ∧ ((dictGet config "access_type").isSome = true →
            (dictGet config "scopes").isSome = true →
            dictGet config "credentialId" = Option.none →
            Auth.url_for_admin_consent cl config = Option.none)) := by
  refine ⟨?_, ?_, ?_, ?_⟩
  · intro hva hvs
    obtain ⟨av, ha⟩ := Option.isSome_iff_exists.mp hva
    obtain ⟨sv, hs⟩ := Option.isSome_iff_exists.mp hvs
    obtain ⟨q, hq, -, -, -, -, -, -⟩ := build_query_props config av sv ha hs
    constructor
    · simp [Auth.url_for_oauth2, hq]
    · intro secret
      simp [Auth.url_for_oauth2_pkce, _build_query_with_pkce, hq]
  · intro ha
    have hnone := build_query_none_access config ha
    exact ⟨by simp [Auth.url_for_oauth2, hnone],
      fun secret => by simp [Auth.url_for_oauth2_pkce, _build_query_with_pkce, hnone]⟩
  · intro hva hs
    obtain ⟨av, ha⟩ := Option.isSome_iff_exists.mp hva
    have hnone := build_query_none_scopes config av ha hs
    exact ⟨by simp [Auth.url_for_oauth2, hnone],
      fun secret => by simp [Auth.url_for_oauth2_pkce, _build_query_with_pkce, hnone]⟩
  · intro hnd
    refine ⟨?_, ?_, ?_, ?_⟩
    · intro hva hvs hvc
      obtain ⟨av, ha⟩ := Option.isSome_iff_exists.mp hva
      obtain ⟨sv, hs⟩ := Option.isSome_iff_exists.mp hvs
      obtain ⟨cv, hc⟩ := Option.isSome_iff_exists.mp hvc
      have ha2 := (dictGet_union_provider config "access_type" hnd (by decide)).trans ha
      have hs2 := (dictGet_union_provider config "scopes" hnd (by decide)).trans hs
      have hc2 := (dictGet_union_provider config "credentialId" hnd (by decide)).trans hc
      obtain ⟨q, hq, -, -, -, -, -, p6⟩ :=
        build_query_props (dictUnion [("provider", Val.str "microsoft")] config)
          av sv ha2 hs2
      have hcq : dictGet (dictSet q "response_type" (Val.str "adminconsent"))
          "credentialId" = some cv := by
        rw [dictGet_dictSet_ne _ _ _ _ (by decide)]
        exact (p6 "credentialId" (by decide) (by decide) (by decide)).trans hc2
      simp [Auth.url_for_admin_consent, _build_query_with_admin_consent, hq, hcq]
    · intro ha
      have ha2 := (dictGet_union_provider config "access_type" hnd (by decide)).trans ha
      have hnone := build_query_none_access _ ha2
      simp [Auth.url_for_admin_consent, _build_query_with_admin_consent, hnone]
    · intro hva hs
      obtain ⟨av, ha⟩ := Option.isSome_iff_exists.mp hva
      have ha2 := (dictGet_union_provider config "access_type" hnd (by decide)).trans ha
      have hs2 := (dictGet_union_provider config "scopes" hnd (by decide)).trans hs
      have hnone := build_query_none_scopes _ av ha2 hs2
      simp [Auth.url_for_admin_consent, _build_query_with_admin_consent, hnone]
    · intro hva hvs hc
      obtain ⟨av, ha⟩ := Option.isSome_iff_exists.mp hva
      obtain ⟨sv, hs⟩ := Option.isSome_iff_exists.mp hvs
      have ha2 := (dictGet_union_provider config "access_type" hnd (by decide)).trans ha
      have hs2 := (dictGet_union_provider config "scopes" hnd (by decide)).trans hs
      have hc2 := (dictGet_union_provider config "credentialId" hnd (by decide)).trans hc
      obtain ⟨q, hq, -, -, -, -, -, p6⟩ :=
        build_query_props (dictUnion [("provider", Val.str "microsoft")] config)
          av sv ha2 hs2
      have hcq : dictGet (dictSet q "response_type" (Val.str "adminconsent"))
          "credentialId" = Option.none := by
        rw [dictGet_dictSet_ne _ _ _ _ (by decide)]
        exact (p6 "credentialId" (by decide) (by decide) (by decide)).trans hc2
      simp [Auth.url_for_admin_consent, _build_query_with_admin_consent, hq, hcq]

/-- Witness for C10: all keys present on one config, `scopes` missing on
another. -/
theorem auth_url_key_preconditions_witness :
    ((dictGet cfgA "access_type").isSome = true
      ∧ (dictGet cfgA "scopes").isSome = true
      ∧ (dictGet cfgA "credentialId").isSome = true
      ∧ (cfgA.map Prod.fst).Nodup)
  ∧ (Auth.url_for_oauth2 clW cfgA).isSome = true
  ∧ (Auth.url_for_admin_consent clW cfgA).isSome = true
  ∧ Auth.url_for_oauth2 clW [("access_type", Val.str "online")] = Option.none := by
  refine ⟨⟨rfl, rfl, rfl, by decide⟩, ?_, ?_, ?_⟩
  · exact ((auth_url_key_preconditions clW cfgA).1 rfl rfl).1
  · exact ((auth_url_key_preconditions clW cfgA).2.2.2 (by decide)).1 rfl rfl rfl
  · exact ((auth_url_key_preconditions clW
      [("access_type", Val.str "online")]).2.2.1 rfl rfl).1
